import Mathlib

/-!
Shallow embedding of sources.go from dnscrypt-proxy: signed-source loading
with a verified on-disk cache, multi-mirror network fetch, refresh
scheduling, and the v2 source-list parser.

Conventions of the embedding:
* Go `time.Duration` and `time.Time` are nanosecond counts modelled as `Int`;
  the Go zero `time.Time` (`IsZero`) is modelled as `none` in an `Option Int`.
* Go `[]byte` and `string` values are modelled as `String` (or `List Char`
  inside the parser, where Go indexes and splits byte strings).
* External collaborators (minisign decode/verify, the HTTP transport,
  url.Parse) are injected as function parameters bundled in environments,
  matching the interface boundary of the spec.
* Fallible Go calls returning `err error` are modelled with `Except String`
  or `Option String` (`none` = nil error).
-/

set_option autoImplicit false

namespace Sources

/-- Go `time.Duration`, in nanoseconds. -/
abbrev Duration := Int

/-- Go `time.Time`, as nanoseconds since an arbitrary epoch. -/
abbrev Time := Int

def nsPerMinute : Int := 60 * 1000000000

/-- `DefaultPrefetchDelay time.Duration = 24 * time.Hour` -/
def DefaultPrefetchDelay : Duration := 24 * 60 * nsPerMinute

/-- `MinimumPrefetchInterval time.Duration = 10 * time.Minute` -/
def MinimumPrefetchInterval : Duration := 10 * nsPerMinute

/-- The `Source` struct (fields used by the claims; `format` is the
enumerated parser variant, zero-valued `SourceFormatV2`).  The Go field
`in` is named `inBytes` here because `in` is reserved in Lean. -/
structure Source where
  name : String
  urls : List String
  format : Nat
  inBytes : String
  cacheTTL : Duration
  prefetchDelay : Duration
  refresh : Option Time
  deriving Repr, DecidableEq

def SourceFormatV2 : Nat := 0

/-- The minisign capability consumed by `checkSignature`:
`minisign.DecodeSignature` and `minisignKey.Verify` (the public key is
fixed inside `verify`, as it is fixed in the `Source`). A decoded
signature is opaque; we model it as a `String`. -/
structure SigEnv where
  decodeSignature : String → Except String String
  verify : String → String → Except String Bool

/-- The full external environment of one Source: signature capability,
network fetch (`fetchFromURL`, already composed with the transport and
the body-length cap), `url.Parse` success, and the outcomes of the two
`safefile.WriteFile` calls in `writeToCache`. -/
structure Env where
  sigEnv : SigEnv
  net : String → Except String String
  urlOk : String → Bool
  okWriteBlob : Bool
  okWriteSig : Bool

/-- On-disk state of one Source cache pair: contents of `cacheFile`
(`none` = missing/unreadable), contents of `cacheFile + ".minisig"`,
and the blob file modification time reported by `os.Stat` (`none` =
stat failure). -/
structure CacheFS where
  blobFile : Option String
  sigFile : Option String
  modTime : Option Time
  deriving Repr, DecidableEq

/-- `func (source *Source) checkSignature(bin, sig []byte) (err error)`:
decode the signature, then verify `bin` against it. -/
def checkSignature (env : SigEnv) (bin sig : String) : Except String Unit :=
  match env.decodeSignature sig with
  | Except.error e => Except.error e
  | Except.ok signature =>
    match env.verify bin signature with
    | Except.error e => Except.error e
    | Except.ok _ => Except.ok ()

/-- `func (source *Source) fetchFromCache(now time.Time) (delay time.Duration, err error)`.
Returns the updated Source (the method mutates `source.in`), the delay
and the error.  Fixed strings stand for the I/O error values of
`ioutil.ReadFile` / `os.Stat`. -/
def fetchFromCache (env : SigEnv) (fs : CacheFS) (source : Source) (now : Time) :
    Source × Duration × Option String :=
  match fs.blobFile with
  | none => (source, 0, some "ReadFile cacheFile failed")
  | some bin =>
    match fs.sigFile with
    | none => (source, 0, some "ReadFile cacheFile.minisig failed")
    | some sig =>
      match checkSignature env bin sig with
      | Except.error e => (source, 0, some e)
      | Except.ok _ =>
        let source := { source with inBytes := bin }
        match fs.modTime with
        | none => (source, 0, some "Stat cacheFile failed")
        | some mt =>
          if now - mt < source.cacheTTL then
            (source, source.prefetchDelay - (now - mt), none)
          else
            (source, 0, none)

/-- `func (source *Source) writeToCache(bin, sig []byte) (err error)`.
Each `safefile.WriteFile` is an atomic whole-file replace (write to a
temporary file, rename into place); `env.okWriteBlob` / `env.okWriteSig`
inject its success.  Besides the updated filesystem and the error, the
result records which writes were attempted, in order.  A successful blob
write stamps the file with `now`. -/
def writeToCache (env : Env) (fs : CacheFS) (bin sig : String) (now : Time) :
    CacheFS × List String × Option String :=
  if env.okWriteBlob then
    let fs := { fs with blobFile := some bin, modTime := some now }
    if env.okWriteSig then
      ({ fs with sigFile := some sig }, ["cacheFile", "cacheFile.minisig"], none)
    else
      (fs, ["cacheFile", "cacheFile.minisig"], some "WriteFile cacheFile.minisig failed")
  else
    (fs, ["cacheFile"], some "WriteFile cacheFile failed")

/-- `sigURL.Path += ".minisig"`: derive the signature URL of a mirror. -/
def sigURLOf (u : String) : String := u ++ ".minisig"

/-- The mirror loop of `fetchWithCache` (its `for _, srcURL := range source.urls`
body): try each URL in order; on a download or signature failure record the
error and continue; stop at the first verified pair.  Returns the verified
pair (if any), the final value of the Go `err` variable (threaded through
`prevErr`, reassigned on every iteration), and the trace of URLs passed to
`fetchFromURL`, in call order. -/
def mirrorLoop (env : Env) : List String → Option String →
    Option (String × String) × Option String × List String
  | [], prevErr => (none, prevErr, [])
  | u :: rest, _ =>
    match env.net u with
    | Except.error e =>
      let r := mirrorLoop env rest (some e)
      (r.1, r.2.1, u :: r.2.2)
    | Except.ok bin =>
      match env.net (sigURLOf u) with
      | Except.error e =>
        let r := mirrorLoop env rest (some e)
        (r.1, r.2.1, u :: sigURLOf u :: r.2.2)
      | Except.ok sig =>
        match checkSignature env.sigEnv bin sig with
        | Except.ok _ => (some (bin, sig), none, [u, sigURLOf u])
        | Except.error e =>
          let r := mirrorLoop env rest (some e)
          (r.1, r.2.1, u :: sigURLOf u :: r.2.2)

/-- Result of one `fetchWithCache` call: the updated Source and cache
filesystem, the returned `(delay, err)` pair, and the trace of network
fetches performed. -/
structure FetchResult where
  source : Source
  fs : CacheFS
  delay : Duration
  err : Option String
  trace : List String

/-- `func (source *Source) fetchWithCache(xTransport *XTransport, now time.Time) (delay time.Duration, err error)`.
The deferred `source.refresh = now.Add(delay)` (registered only when
`len(source.urls) > 0`) is applied to the final delay of each return
path.  A cache-write failure after a successful download is ignored. -/
def fetchWithCache (env : Env) (fs : CacheFS) (source : Source) (now : Time) :
    FetchResult :=
  let c := fetchFromCache env.sigEnv fs source now
  let source := c.1
  let cacheDelay := c.2.1
  let cacheErr := c.2.2
  if source.urls = [] ∨ 0 < cacheDelay then
    let source :=
      if source.urls = [] then source
      else { source with refresh := some (now + cacheDelay) }
    { source := source, fs := fs, delay := cacheDelay, err := cacheErr, trace := [] }
  else
    let r := mirrorLoop env source.urls cacheErr
    match r.1 with
    | none =>
      { source := { source with refresh := some (now + MinimumPrefetchInterval) },
        fs := fs, delay := MinimumPrefetchInterval, err := r.2.1, trace := r.2.2 }
    | some (bin, sig) =>
      let source := { source with inBytes := bin }
      let w := writeToCache env fs bin sig now
      { source := { source with refresh := some (now + source.prefetchDelay) },
        fs := w.1, delay := source.prefetchDelay, err := none, trace := r.2.2 }

/-- `func NewSource(...) (source *Source, err error)`: clamp
`refreshDelay` up to `DefaultPrefetchDelay`, build the Source, check the
format string, check the public key (`keyOk` injects the outcome of
`minisign.NewPublicKey`), keep the URLs that `url.Parse` accepts
(`parseURLs`), then run `fetchWithCache` once.  Returns the Source, the
resulting cache filesystem, and the error. -/
def NewSource (env : Env) (fs : CacheFS) (name : String) (urls : List String)
    (keyOk : Bool) (formatStr : String) (refreshDelay : Duration) (now : Time) :
    Source × CacheFS × Option String :=
  let refreshDelay :=
    if refreshDelay < DefaultPrefetchDelay then DefaultPrefetchDelay else refreshDelay
  let source : Source :=
    { name := name, urls := [], format := SourceFormatV2, inBytes := "",
      cacheTTL := refreshDelay, prefetchDelay := DefaultPrefetchDelay, refresh := none }
  if formatStr ≠ "v2" then
    (source, fs, some ("Unsupported source format: [" ++ formatStr ++ "]"))
  else if ¬ keyOk then
    (source, fs, some "invalid public key")
  else
    let source := { source with urls := urls.filter env.urlOk }
    let r := fetchWithCache env fs source now
    (r.source, r.fs, r.err)

/-- One Source together with its external environment and its cache
files, as iterated by `PrefetchSources`. -/
structure SourceWorld where
  source : Source
  env : Env
  fs : CacheFS

/-- One entry of the per-source outcome record of a sweep:
whether the refresh path was invoked, and if so the `(delay, err)`
pair `fetchWithCache` returned. -/
structure SweepStep where
  invoked : Bool
  delay : Duration
  err : Option String
  deriving Repr, DecidableEq

/-- The `interval` update of `PrefetchSources` for one successful
refresh: `if delay >= MinimumPrefetchInterval && (interval == MinimumPrefetchInterval || interval > delay) \x7b interval = delay \x7d`. -/
def combineInterval (interval d : Duration) : Duration :=
  if MinimumPrefetchInterval ≤ d ∧ (interval = MinimumPrefetchInterval ∨ d < interval) then d
  else interval

/-- The loop of `func PrefetchSources(xTransport *XTransport, sources []*Source) time.Duration`,
threading the `interval` accumulator.  Skips a Source whose `refresh`
is the zero time or after `now`; otherwise runs `fetchWithCache` and,
on success, folds the returned delay into `interval`.  Returns the
updated worlds, the final interval, and one `SweepStep` per Source. -/
def prefetchGo (now : Time) : List SourceWorld → Duration →
    List SourceWorld × Duration × List SweepStep
  | [], interval => ([], interval, [])
  | w :: ws, interval =>
    match w.source.refresh with
    | none =>
      let r := prefetchGo now ws interval
      (w :: r.1, r.2.1, ⟨false, 0, none⟩ :: r.2.2)
    | some t =>
      if now < t then
        let r := prefetchGo now ws interval
        (w :: r.1, r.2.1, ⟨false, 0, none⟩ :: r.2.2)
      else
        let f := fetchWithCache w.env w.fs w.source now
        let w := { w with source := f.source, fs := f.fs }
        let interval :=
          match f.err with
          | some _ => interval
          | none => combineInterval interval f.delay
        let r := prefetchGo now ws interval
        (w :: r.1, r.2.1, ⟨true, f.delay, f.err⟩ :: r.2.2)

/-- `PrefetchSources`: run the sweep with `interval` starting at
`MinimumPrefetchInterval`. -/
def PrefetchSources (now : Time) (ws : List SourceWorld) :
    List SourceWorld × Duration × List SweepStep :=
  prefetchGo now ws MinimumPrefetchInterval

/-! ## The v2 format parser

Go strings are indexed and split by byte/rune here, so the parser works
over `List Char` and converts back to `String` at the boundary.  The
stamp decoder `stamps.NewServerStampFromString` is an external
collaborator, injected as `parseStamp`. -/

/-- `unicode.IsSpace` restricted to Latin-1 (the Unicode category-Z
code points above U+00FF are elided; no claim involves them). -/
def goIsSpace (c : Char) : Bool :=
  c = '\t' || c = '\n' || c = '\x0b' || c = '\x0c' || c = '\r' || c = ' ' ||
  c = '\x85' || c = '\xa0'

/-- `strings.TrimFunc(s, unicode.IsSpace)`: drop leading and trailing
space characters. -/
def goTrim (s : List Char) : List Char :=
  ((s.dropWhile goIsSpace).reverse.dropWhile goIsSpace).reverse

/-- Worker for `goSplit`, with explicit fuel (one unit per character
consumed, so `length + 1` always suffices). -/
def goSplitAux (sep : List Char) : Nat → List Char → List Char → List (List Char)
  | 0, acc, s => [acc.reverse ++ s]
  | _ + 1, acc, [] => [acc.reverse]
  | fuel + 1, acc, c :: rest =>
    if sep.isPrefixOf (c :: rest) then
      acc.reverse :: goSplitAux sep fuel [] (List.drop sep.length (c :: rest))
    else
      goSplitAux sep fuel (c :: acc) rest

/-- `strings.Split(s, sep)` for a nonempty separator: split around each
non-overlapping leftmost occurrence of `sep`. -/
def goSplit (sep s : List Char) : List (List Char) :=
  goSplitAux sep (s.length + 1) [] s

/-- UTF-8 byte count of one character (Go `len` counts bytes). -/
def charUtf8Size (c : Char) : Nat :=
  if c.val < 0x80 then 1 else if c.val < 0x800 then 2
  else if c.val < 0x10000 then 3 else 4

/-- Go `len(s)` (byte length) of a character list. -/
def utf8Len (s : List Char) : Nat := (s.map charUtf8Size).sum

/-- One parsed entry: `RegisteredServer`. -/
structure RegisteredServer where
  name : String
  stamp : String
  description : String
  deriving Repr, DecidableEq

/-- Outcome of the inner `for _, subpart := range subparts` loop of
`parseV2`: either a second stamp line was hit (`continue PartsLoop`
after the "Multiple stamps" entry error), or the final `stampStr` and
`description` accumulators. -/
inductive SubpartsOut where
  | multipleStamps
  | done (stampStr description : List Char)
  deriving Repr, DecidableEq

/-- The inner subpart loop: trim each line; a line beginning `"sdns:"`
is the stamp (a second one is an entry error); empty lines and lines
beginning `"//"` are skipped; anything else joins the description with
`"\n"` separators. -/
def scanSubparts : List (List Char) → List Char → List Char → SubpartsOut
  | [], stampStr, description => SubpartsOut.done stampStr description
  | sp :: rest, stampStr, description =>
    let sp := goTrim sp
    if (String.toList "sdns:").isPrefixOf sp then
      if 0 < utf8Len stampStr then SubpartsOut.multipleStamps
      else scanSubparts rest sp description
    else if utf8Len sp = 0 || (String.toList "//").isPrefixOf sp then
      scanSubparts rest stampStr description
    else if 0 < utf8Len description then
      scanSubparts rest stampStr (description ++ '\n' :: sp)
    else
      scanSubparts rest stampStr (description ++ sp)

/-- Outcome of processing one `part` (one `"## "` section) in the
`PartsLoop` of `parseV2`: a format-level abort, an entry-level error
(collected, loop continues), or a registered server. -/
inductive PartOut where
  | fatal
  | entryErr (msg : String)
  | server (s : RegisteredServer)
  deriving Repr, DecidableEq

/-- The body of `PartsLoop` for one section: trim, split into lines,
require at least two lines and a nonempty first line (the name,
prefixed), scan the rest, then require a stamp of at least 6 bytes that
decodes. -/
def parsePart (parseStamp : String → Except String String) (npfx : String)
    (part0 : List Char) : PartOut :=
  let part := goTrim part0
  match goSplit ['\n'] part with
  | [] => PartOut.fatal
  | first :: rest =>
    if rest = [] then PartOut.fatal
    else
      let name := goTrim first
      if utf8Len name = 0 then PartOut.fatal
      else
        let name := npfx ++ String.mk name
        match scanSubparts rest [] [] with
        | SubpartsOut.multipleStamps =>
          PartOut.entryErr ("Multiple stamps for server [" ++ name ++ "]")
        | SubpartsOut.done stampStr description =>
          if utf8Len stampStr < 6 then
            PartOut.entryErr ("Missing stamp for server [" ++ name ++ "]")
          else
            match parseStamp (String.mk stampStr) with
            | Except.error e =>
              PartOut.entryErr
                ("Invalid or unsupported stamp [" ++ String.mk stampStr ++ "]: " ++ e)
            | Except.ok stamp =>
              PartOut.server { name := name, stamp := stamp, description := String.mk description }

/-- The error component of a `parseV2` result: a format-level failure
(`Invalid format for source`), or the collected entry-level stamp
errors (joined by `", "` in Go; kept as the ordered list here). -/
inductive ParseErr where
  | invalidFormat
  | stampErrs (msgs : List String)
  deriving Repr, DecidableEq

/-- The outer `PartsLoop`: a fatal part returns the servers collected
so far with the format error; an entry error is appended and the loop
continues; at the end a nonempty error list is reported alongside the
servers. -/
def parseV2Go (parseStamp : String → Except String String) (npfx : String) :
    List (List Char) → List RegisteredServer → List String →
    List RegisteredServer × Option ParseErr
  | [], servers, errs =>
    (servers, if errs = [] then none else some (ParseErr.stampErrs errs))
  | p :: rest, servers, errs =>
    match parsePart parseStamp npfx p with
    | PartOut.fatal => (servers, some ParseErr.invalidFormat)
    | PartOut.entryErr m => parseV2Go parseStamp npfx rest servers (errs ++ [m])
    | PartOut.server s => parseV2Go parseStamp npfx rest (servers ++ [s]) errs

/-- `func (source *Source) parseV2(prefix string) ([]RegisteredServer, error)`:
split the verified content on `"## "`, require at least two fragments
(at least one section marker), drop the text before the first marker,
and run `PartsLoop`. -/
def parseV2 (parseStamp : String → Except String String) (source : Source)
    (npfx : String) : List RegisteredServer × Option ParseErr :=
  let parts := goSplit (String.toList "## ") source.inBytes.toList
  if parts.length < 2 then ([], some ParseErr.invalidFormat)
  else parseV2Go parseStamp npfx (parts.drop 1) [] []

/-! ## Specification-side helpers

Recomputations of per-mirror outcomes and of the sweep minimum, used to
state the claims about `mirrorLoop` and `PrefetchSources`. -/

/-- Whether one mirror attempt succeeds end to end: blob download,
signature download, signature check. -/
def mirrorSucceeds (env : Env) (u : String) : Bool :=
  match env.net u with
  | Except.error _ => false
  | Except.ok bin =>
    match env.net (sigURLOf u) with
    | Except.error _ => false
    | Except.ok sig =>
      match checkSignature env.sigEnv bin sig with
      | Except.ok _ => true
      | Except.error _ => false

/-- The pair a mirror offers when both downloads succeed. -/
def mirrorResult (env : Env) (u : String) : Option (String × String) :=
  match env.net u, env.net (sigURLOf u) with
  | Except.ok bin, Except.ok sig => some (bin, sig)
  | _, _ => none

/-- The network fetches one mirror attempt performs: the blob URL, and
the signature URL when the blob download succeeded. -/
def attemptsOf (env : Env) (u : String) : List String :=
  match env.net u with
  | Except.error _ => [u]
  | Except.ok _ => [u, sigURLOf u]

/-- The error one failing mirror attempt leaves in the Go `err`
variable (`none` when the attempt succeeds). -/
def mirrorErr (env : Env) (u : String) : Option String :=
  match env.net u with
  | Except.error e => some e
  | Except.ok bin =>
    match env.net (sigURLOf u) with
    | Except.error e => some e
    | Except.ok sig =>
      match checkSignature env.sigEnv bin sig with
      | Except.error e => some e
      | Except.ok _ => none

/-- The last error after attempting every mirror of a list (starting
from the error already in `err`). -/
def lastErrList (env : Env) : List String → Option String → Option String
  | [], prev => prev
  | u :: rest, _ => lastErrList env rest (mirrorErr env u)

/-- The delays of the successfully refreshed sources of a sweep, in
sweep order. -/
def successDelays (steps : List SweepStep) : List Duration :=
  steps.filterMap fun st =>
    match st with
    | ⟨true, d, none⟩ => some d
    | _ => none

/-- The minimum of the delays that reach the `MinimumPrefetchInterval`
floor, when any exists. -/
def minQual : List Duration → Option Duration
  | [] => none
  | d :: rest =>
    if MinimumPrefetchInterval ≤ d then
      match minQual rest with
      | none => some d
      | some m => some (min d m)
    else minQual rest

/-- The sweep return value the spec describes: the minimum qualifying
delay, defaulting to the floor. -/
def specSweepMin (ds : List Duration) : Duration :=
  (minQual ds).getD MinimumPrefetchInterval

/-! ## Concrete instances for witnesses and counterexamples

A toy minisign capability: the valid encoded signature of a blob `b` is
exactly `"m:SIG:" ++ b` (decoding strips `"m:"`, verification compares
with `"SIG:" ++ b`), together with small networks and sources. -/

def toySigEnv : SigEnv :=
  { decodeSignature := fun s =>
      match s.toList with
      | 'm' :: ':' :: rest => Except.ok (String.mk rest)
      | _ => Except.error "invalid encoded signature"
    verify := fun bin sigDec =>
      if sigDec = "SIG:" ++ bin then Except.ok true else Except.error "invalid signature" }

/-- The valid detached signature of `bin` under `toySigEnv`. -/
def toySignedBy (bin : String) : String := "m:SIG:" ++ bin

/-- A network where every fetch fails. -/
def toyNetDown : String → Except String String := fun _ => Except.error "tcp timeout"

/-- A network serving the single mirror of `toySource` a verifiable pair. -/
def toyNetServe : String → Except String String := fun u =>
  if u = "http://m1/list" then Except.ok "FRESHDATA"
  else if u = "http://m1/list.minisig" then Except.ok (toySignedBy "FRESHDATA")
  else Except.error "no route to host"

/-- The three-mirror network of P4: M1 down, M2 serving a pair whose
signature does not verify, M3 serving a valid pair. -/
def toyNetM : String → Except String String := fun u =>
  if u = "m1" then Except.error "m1 down"
  else if u = "m2" then Except.ok "D2"
  else if u = "m2.minisig" then Except.ok "m:SIG:WRONG"
  else if u = "m3" then Except.ok "D3"
  else if u = "m3.minisig" then Except.ok (toySignedBy "D3")
  else Except.error "no route to host"

/-- Environment around `toySigEnv` with a given network and both cache
writes succeeding. -/
def toyEnv (net : String → Except String String) : Env :=
  { sigEnv := toySigEnv, net := net, urlOk := fun _ => true,
    okWriteBlob := true, okWriteSig := true }

/-- Environment whose blob write fails (first `safefile.WriteFile`). -/
def toyEnvNoBlobWrite : Env := { toyEnv toyNetDown with okWriteBlob := false }

/-- Environment whose signature write fails (second `safefile.WriteFile`),
modelling a failure or crash after the blob rename committed. -/
def toyEnvNoSigWrite : Env := { toyEnv toyNetDown with okWriteSig := false }

def hourNs : Int := 60 * nsPerMinute

/-- A Source with one mirror, `cacheTTL` 48h (from `refreshDelay` 48h)
and the constant `prefetchDelay` of 24h. -/
def toySource : Source :=
  { name := "s", urls := ["http://m1/list"], format := SourceFormatV2, inBytes := "",
    cacheTTL := 48 * hourNs, prefetchDelay := DefaultPrefetchDelay, refresh := none }

/-- A cache pair for `toySource` verified by `toySigEnv`, written at
time 0. -/
def toyCache : CacheFS :=
  { blobFile := some "DATA", sigFile := some (toySignedBy "DATA"), modTime := some 0 }

/-- An absent cache. -/
def toyCacheMiss : CacheFS := { blobFile := none, sigFile := none, modTime := none }

/-- The stamp string the toy decoder accepts. -/
def stampOkStr : String := "sdns://AgcAAAAAAAAAACKq"

/-- Toy `stamps.NewServerStampFromString`: accepts exactly `stampOkStr`. -/
def parseStampToy (s : String) : Except String String :=
  if s = stampOkStr then Except.ok s else Except.error "unsupported stamp version or protocol"

/-- The P6 input: section A with an undecodable stamp, section B with a
valid one. -/
def srcP6 : Source := { toySource with inBytes := "## A\nsdns://bad\n## B\n" ++ stampOkStr ++ "\n" }

/-- A source text whose section A consists of the name line only
(missing its connection descriptor) followed by a valid section B. -/
def srcOnlyName : Source :=
  { toySource with inBytes := "## A\n## B\n" ++ stampOkStr ++ "\n" }

/-- Section B of `srcOnlyName` alone. -/
def srcOnlyB : Source := { toySource with inBytes := "## B\n" ++ stampOkStr ++ "\n" }

/-- A world whose source has a fresh verified cache arranged so that the
fresh-cache refresh yields a delay of exactly `d` minutes. -/
def toyFreshWorld (d : Int) : SourceWorld :=
  { source := { toySource with refresh := some 0 },
    env := toyEnv toyNetDown,
    fs := { blobFile := some "DATA", sigFile := some (toySignedBy "DATA"),
            modTime := some (-(DefaultPrefetchDelay - d * nsPerMinute)) } }

/-- A world that is not due: `refresh` in the future relative to 0. -/
def toyFutureWorld : SourceWorld :=
  { source := { toySource with refresh := some (5 * hourNs) },
    env := toyEnv toyNetDown, fs := toyCache }

/-- A world that was never scheduled: `refresh` is the zero time. -/
def toyUnscheduledWorld : SourceWorld :=
  { source := toySource, env := toyEnv toyNetDown, fs := toyCache }

/-! ## Helper lemmas -/

theorem fetchFromCache_fields (env : SigEnv) (fs : CacheFS) (s : Source) (now : Time) :
    (fetchFromCache env fs s now).1.cacheTTL = s.cacheTTL ∧
    (fetchFromCache env fs s now).1.prefetchDelay = s.prefetchDelay ∧
    (fetchFromCache env fs s now).1.urls = s.urls ∧
    (fetchFromCache env fs s now).1.refresh = s.refresh := by
  unfold fetchFromCache
  dsimp only
  repeat' split
  all_goals exact ⟨rfl, rfl, rfl, rfl⟩

theorem fetchFromCache_inBytes (env : SigEnv) (fs : CacheFS) (s : Source) (now : Time) :
    (fetchFromCache env fs s now).1.inBytes = s.inBytes ∨
    ∃ sig, checkSignature env (fetchFromCache env fs s now).1.inBytes sig = Except.ok () := by
  unfold fetchFromCache
  cases hb : fs.blobFile with
  | none => exact Or.inl rfl
  | some bin =>
    dsimp only
    cases hsg : fs.sigFile with
    | none => exact Or.inl rfl
    | some sig =>
      dsimp only
      cases hc : checkSignature env bin sig with
      | error e => exact Or.inl rfl
      | ok u =>
        dsimp only
        cases hm : fs.modTime with
        | none => exact Or.inr ⟨sig, by simp [hc]⟩
        | some mt =>
          by_cases hf : now - mt < s.cacheTTL
          · exact Or.inr ⟨sig, by simp [hf, hc]⟩
          · exact Or.inr ⟨sig, by simp [hf, hc]⟩

theorem fetchFromCache_no_err_or_zero (env : SigEnv) (fs : CacheFS) (s : Source) (now : Time) :
    (fetchFromCache env fs s now).2.2 = none ∨ (fetchFromCache env fs s now).2.1 = 0 := by
  unfold fetchFromCache
  dsimp only
  repeat' split
  all_goals simp

theorem fetchWithCache_early (env : Env) (fs : CacheFS) (s : Source) (now : Time)
    (h : s.urls = [] ∨ 0 < (fetchFromCache env.sigEnv fs s now).2.1) :
    fetchWithCache env fs s now =
      { source :=
          if s.urls = [] then (fetchFromCache env.sigEnv fs s now).1
          else { (fetchFromCache env.sigEnv fs s now).1 with
                 refresh := some (now + (fetchFromCache env.sigEnv fs s now).2.1) },
        fs := fs, delay := (fetchFromCache env.sigEnv fs s now).2.1,
        err := (fetchFromCache env.sigEnv fs s now).2.2, trace := [] } := by
  have hu := (fetchFromCache_fields env.sigEnv fs s now).2.2.1
  unfold fetchWithCache
  dsimp only
  rw [hu, if_pos h]

theorem fetchWithCache_loop_fail (env : Env) (fs : CacheFS) (s : Source) (now : Time)
    (hu : ¬ s.urls = []) (hd : ¬ 0 < (fetchFromCache env.sigEnv fs s now).2.1)
    (hl : (mirrorLoop env s.urls (fetchFromCache env.sigEnv fs s now).2.2).1 = none) :
    fetchWithCache env fs s now =
      { source := { (fetchFromCache env.sigEnv fs s now).1 with
                    refresh := some (now + MinimumPrefetchInterval) },
        fs := fs, delay := MinimumPrefetchInterval,
        err := (mirrorLoop env s.urls (fetchFromCache env.sigEnv fs s now).2.2).2.1,
        trace := (mirrorLoop env s.urls (fetchFromCache env.sigEnv fs s now).2.2).2.2 } := by
  have hu' := (fetchFromCache_fields env.sigEnv fs s now).2.2.1
  unfold fetchWithCache
  dsimp only
  rw [hu', if_neg (not_or.mpr ⟨hu, hd⟩), hl]

theorem fetchWithCache_loop_ok (env : Env) (fs : CacheFS) (s : Source) (now : Time)
    (bin sig : String)
    (hu : ¬ s.urls = []) (hd : ¬ 0 < (fetchFromCache env.sigEnv fs s now).2.1)
    (hl : (mirrorLoop env s.urls (fetchFromCache env.sigEnv fs s now).2.2).1 = some (bin, sig)) :
    fetchWithCache env fs s now =
      { source :=
          { (fetchFromCache env.sigEnv fs s now).1 with
            inBytes := bin,
            refresh := some (now + s.prefetchDelay) },
        fs := (writeToCache env fs bin sig now).1,
        delay := s.prefetchDelay, err := none,
        trace := (mirrorLoop env s.urls (fetchFromCache env.sigEnv fs s now).2.2).2.2 } := by
  have hu' := (fetchFromCache_fields env.sigEnv fs s now).2.2.1
  have hp := (fetchFromCache_fields env.sigEnv fs s now).2.1
  unfold fetchWithCache
  dsimp only
  rw [hu', if_neg (not_or.mpr ⟨hu, hd⟩), hl]
  dsimp only
  rw [hp]

theorem mirrorLoop_some_verified (env : Env) :
    ∀ (urls : List String) (p : Option String) (b sg : String),
      (mirrorLoop env urls p).1 = some (b, sg) →
      checkSignature env.sigEnv b sg = Except.ok () := by
  intro urls
  induction urls with
  | nil => intro p b sg h; simp [mirrorLoop] at h
  | cons u rest ih =>
    intro p b sg h
    unfold mirrorLoop at h
    cases hn : env.net u with
    | error e => rw [hn] at h; dsimp only at h; exact ih (some e) b sg h
    | ok bin =>
      rw [hn] at h; dsimp only at h
      cases hn2 : env.net (sigURLOf u) with
      | error e => rw [hn2] at h; dsimp only at h; exact ih (some e) b sg h
      | ok sig =>
        rw [hn2] at h; dsimp only at h
        cases hc : checkSignature env.sigEnv bin sig with
        | ok v =>
          cases v
          rw [hc] at h
          dsimp only at h
          have h2 := Option.some.inj h
          rw [Prod.mk.injEq] at h2
          obtain ⟨rfl, rfl⟩ := h2
          exact hc
        | error e => rw [hc] at h; dsimp only at h; exact ih (some e) b sg h

theorem mirrorLoop_none_isSome (env : Env) :
    ∀ (urls : List String) (p : Option String), (p.isSome ∨ urls ≠ []) →
      (mirrorLoop env urls p).1 = none → (mirrorLoop env urls p).2.1.isSome := by
  intro urls
  induction urls with
  | nil =>
    intro p hp _
    have : p.isSome := by
      rcases hp with h | h
      · exact h
      · exact absurd rfl h
    simpa [mirrorLoop] using this
  | cons u rest ih =>
    intro p _ h1
    unfold mirrorLoop at h1 ⊢
    cases hn : env.net u with
    | error e =>
      rw [hn] at h1; dsimp only at h1 ⊢
      exact ih (some e) (Or.inl rfl) h1
    | ok bin =>
      rw [hn] at h1; dsimp only at h1 ⊢
      cases hn2 : env.net (sigURLOf u) with
      | error e =>
        rw [hn2] at h1; dsimp only at h1 ⊢
        exact ih (some e) (Or.inl rfl) h1
      | ok sig =>
        rw [hn2] at h1; dsimp only at h1 ⊢
        cases hc : checkSignature env.sigEnv bin sig with
        | ok v => rw [hc] at h1; dsimp only at h1; exact absurd h1 (by simp)
        | error e =>
          rw [hc] at h1; dsimp only at h1 ⊢
          exact ih (some e) (Or.inl rfl) h1

theorem fetchWithCache_fresh (env : Env) (fs : CacheFS) (s : Source) (now : Time)
    (bin sig : String) (mt : Time)
    (hu : s.urls ≠ [])
    (hb : fs.blobFile = some bin) (hs : fs.sigFile = some sig)
    (hc : checkSignature env.sigEnv bin sig = Except.ok ())
    (hm : fs.modTime = some mt)
    (hfresh : now - mt < s.cacheTTL)
    (hpos : 0 < s.prefetchDelay - (now - mt)) :
    fetchWithCache env fs s now =
      { source :=
          { s with
            inBytes := bin,
            refresh := some (now + (s.prefetchDelay - (now - mt))) },
        fs := fs, delay := s.prefetchDelay - (now - mt), err := none, trace := [] } := by
  have hcache : fetchFromCache env.sigEnv fs s now =
      ({ s with inBytes := bin }, s.prefetchDelay - (now - mt), none) := by
    unfold fetchFromCache
    rw [hb]; dsimp only
    rw [hs]; dsimp only
    rw [hc]; dsimp only
    rw [hm]; dsimp only
    rw [if_pos hfresh]
  rw [fetchWithCache_early env fs s now (Or.inr (by rw [hcache]; exact hpos))]
  rw [hcache, if_neg hu]

theorem fetchWithCache_source_fields (env : Env) (fs : CacheFS) (s : Source) (now : Time) :
    (fetchWithCache env fs s now).source.cacheTTL = s.cacheTTL ∧
    (fetchWithCache env fs s now).source.prefetchDelay = s.prefetchDelay ∧
    (fetchWithCache env fs s now).source.urls = s.urls := by
  have hf := fetchFromCache_fields env.sigEnv fs s now
  by_cases hearly : s.urls = [] ∨ 0 < (fetchFromCache env.sigEnv fs s now).2.1
  · rw [fetchWithCache_early env fs s now hearly]
    dsimp only
    by_cases hnil : s.urls = []
    · rw [if_pos hnil]; exact ⟨hf.1, hf.2.1, hf.2.2.1⟩
    · rw [if_neg hnil]; exact ⟨hf.1, hf.2.1, hf.2.2.1⟩
  · push_neg at hearly
    obtain ⟨hu, hd⟩ := hearly
    cases hl : (mirrorLoop env s.urls (fetchFromCache env.sigEnv fs s now).2.2).1 with
    | none =>
      rw [fetchWithCache_loop_fail env fs s now hu (not_lt.mpr hd) hl]
      exact ⟨hf.1, hf.2.1, hf.2.2.1⟩
    | some pr =>
      obtain ⟨bin, sig⟩ := pr
      rw [fetchWithCache_loop_ok env fs s now bin sig hu (not_lt.mpr hd) hl]
      exact ⟨hf.1, hf.2.1, hf.2.2.1⟩

/-! ## Claim theorems -/

/-- C1: along every load/refresh path of a Source (cache or network),
the in-memory content field `in` either keeps its previous value or
holds bytes for which signature verification against an accompanying
detached signature succeeded; no path stores unverified bytes. -/
theorem C1_content_only_verified (env : Env) (fs : CacheFS) (s : Source) (now : Time) :
    (fetchWithCache env fs s now).source.inBytes = s.inBytes ∨
    ∃ sig, checkSignature env.sigEnv (fetchWithCache env fs s now).source.inBytes sig =
      Except.ok () := by
  by_cases hearly : s.urls = [] ∨ 0 < (fetchFromCache env.sigEnv fs s now).2.1
  · rw [fetchWithCache_early env fs s now hearly]
    dsimp only
    by_cases hnil : s.urls = []
    · rw [if_pos hnil]
      exact fetchFromCache_inBytes env.sigEnv fs s now
    · rw [if_neg hnil]
      exact fetchFromCache_inBytes env.sigEnv fs s now
  · push_neg at hearly
    obtain ⟨hu, hd⟩ := hearly
    cases hl : (mirrorLoop env s.urls (fetchFromCache env.sigEnv fs s now).2.2).1 with
    | none =>
      rw [fetchWithCache_loop_fail env fs s now hu (not_lt.mpr hd) hl]
      exact fetchFromCache_inBytes env.sigEnv fs s now
    | some pr =>
      obtain ⟨bin, sig⟩ := pr
      rw [fetchWithCache_loop_ok env fs s now bin sig hu (not_lt.mpr hd) hl]
      exact Or.inr ⟨sig, mirrorLoop_some_verified env s.urls _ bin sig hl⟩

/-- C4: for a Source with at least one mirror, after a refresh attempt
whose network fetch failed (the returned error is set), the scheduled
`refresh` time satisfies `refresh - now = MinimumPrefetchInterval`, so
the gap is at least the 10-minute floor and is never zero or negative. -/
theorem C4_failed_refresh_floor (env : Env) (fs : CacheFS) (s : Source) (now : Time)
    (hu : s.urls ≠ []) (he : ((fetchWithCache env fs s now).err).isSome) :
    ∃ t, (fetchWithCache env fs s now).source.refresh = some t ∧
      MinimumPrefetchInterval ≤ t - now ∧ 0 < t - now := by
  by_cases hd : 0 < (fetchFromCache env.sigEnv fs s now).2.1
  · rw [fetchWithCache_early env fs s now (Or.inr hd)] at he
    dsimp only at he
    rcases fetchFromCache_no_err_or_zero env.sigEnv fs s now with h0 | h0
    · rw [h0] at he; simp at he
    · rw [h0] at hd; exact absurd hd (by norm_num)
  · cases hl : (mirrorLoop env s.urls (fetchFromCache env.sigEnv fs s now).2.2).1 with
    | some pr =>
      obtain ⟨bin, sig⟩ := pr
      rw [fetchWithCache_loop_ok env fs s now bin sig hu hd hl] at he
      simp at he
    | none =>
      rw [fetchWithCache_loop_fail env fs s now hu hd hl]
      refine ⟨now + MinimumPrefetchInterval, rfl, by simp, ?_⟩
      have h10 : (0 : Int) < MinimumPrefetchInterval := by decide
      simpa using h10

/-- Witness for C4: a Source with one mirror, no cache and an
unreachable network gets its next refresh scheduled exactly the floor
ahead. -/
theorem C4_witness : ∃ t,
    (fetchWithCache (toyEnv toyNetDown) toyCacheMiss toySource 0).source.refresh = some t ∧
    MinimumPrefetchInterval ≤ t - 0 ∧ 0 < t - 0 :=
  C4_failed_refresh_floor (toyEnv toyNetDown) toyCacheMiss toySource 0
    (by decide) (by decide)

/-- C10: when the cached pair verifies, `elapsed < cacheTTL` and
`prefetchDelay - elapsed > 0`, a Source with at least one mirror gets
`refresh = now + (prefetchDelay - elapsed)` exactly and performs no
network fetch; nothing clamps this delay to the 10-minute floor (the
witness exhibits a 5-minute delay). -/
theorem C10_fresh_cache_exact_delay (env : Env) (fs : CacheFS) (s : Source) (now : Time)
    (bin sig : String) (mt : Time)
    (hu : s.urls ≠ [])
    (hb : fs.blobFile = some bin) (hs : fs.sigFile = some sig)
    (hc : checkSignature env.sigEnv bin sig = Except.ok ())
    (hm : fs.modTime = some mt)
    (hfresh : now - mt < s.cacheTTL)
    (hpos : 0 < s.prefetchDelay - (now - mt)) :
    (fetchWithCache env fs s now).source.refresh =
      some (now + (s.prefetchDelay - (now - mt))) ∧
    (fetchWithCache env fs s now).trace = [] := by
  rw [fetchWithCache_fresh env fs s now bin sig mt hu hb hs hc hm hfresh hpos]
  exact ⟨rfl, rfl⟩

/-- Witness for C10: a fresh verified cache aged to 5 minutes before
the end of its prefetch window yields a scheduled delay of exactly
5 minutes, strictly below the 10-minute floor. -/
theorem C10_witness :
    (fetchWithCache (toyEnv toyNetDown) (toyFreshWorld 5).fs toySource 0).source.refresh =
      some (5 * nsPerMinute) ∧
    (fetchWithCache (toyEnv toyNetDown) (toyFreshWorld 5).fs toySource 0).trace = [] ∧
    5 * nsPerMinute < MinimumPrefetchInterval := by
  have h := C10_fresh_cache_exact_delay (toyEnv toyNetDown) (toyFreshWorld 5).fs toySource 0
    "DATA" (toySignedBy "DATA") (-(DefaultPrefetchDelay - 5 * nsPerMinute))
    (by decide) rfl rfl rfl rfl (by decide) (by decide)
  exact ⟨by rw [h.1]; decide, h.2, by decide⟩

/-- C3 (amended): when the cached pair verifies, `elapsed < cacheTTL`
and additionally `prefetchDelay - elapsed > 0`, two successive
`fetchWithCache` calls both skip the network entirely and produce the
same content (the cached bytes). -/
theorem C3_fresh_cache_idempotent (env : Env) (fs : CacheFS) (s : Source) (now : Time)
    (bin sig : String) (mt : Time)
    (hu : s.urls ≠ [])
    (hb : fs.blobFile = some bin) (hs : fs.sigFile = some sig)
    (hc : checkSignature env.sigEnv bin sig = Except.ok ())
    (hm : fs.modTime = some mt)
    (hfresh : now - mt < s.cacheTTL)
    (hpos : 0 < s.prefetchDelay - (now - mt)) :
    (fetchWithCache env fs s now).trace = [] ∧
    (fetchWithCache env (fetchWithCache env fs s now).fs
      (fetchWithCache env fs s now).source now).trace = [] ∧
    (fetchWithCache env (fetchWithCache env fs s now).fs
      (fetchWithCache env fs s now).source now).source.inBytes =
      (fetchWithCache env fs s now).source.inBytes ∧
    (fetchWithCache env fs s now).source.inBytes = bin := by
  rw [fetchWithCache_fresh env fs s now bin sig mt hu hb hs hc hm hfresh hpos]
  dsimp only
  rw [fetchWithCache_fresh env fs
    { s with inBytes := bin, refresh := some (now + (s.prefetchDelay - (now - mt))) }
    now bin sig mt hu hb hs hc hm hfresh hpos]
  exact ⟨rfl, rfl, rfl, rfl⟩

/-- Witness for C3: the idempotent fresh-cache refresh at a concrete
Source, cache and time. -/
theorem C3_witness :
    (fetchWithCache (toyEnv toyNetDown) toyCache toySource hourNs).trace = [] ∧
    (fetchWithCache (toyEnv toyNetDown)
      (fetchWithCache (toyEnv toyNetDown) toyCache toySource hourNs).fs
      (fetchWithCache (toyEnv toyNetDown) toyCache toySource hourNs).source hourNs).trace = [] ∧
    (fetchWithCache (toyEnv toyNetDown)
      (fetchWithCache (toyEnv toyNetDown) toyCache toySource hourNs).fs
      (fetchWithCache (toyEnv toyNetDown) toyCache toySource hourNs).source hourNs).source.inBytes =
      (fetchWithCache (toyEnv toyNetDown) toyCache toySource hourNs).source.inBytes ∧
    (fetchWithCache (toyEnv toyNetDown) toyCache toySource hourNs).source.inBytes = "DATA" :=
  C3_fresh_cache_idempotent (toyEnv toyNetDown) toyCache toySource hourNs
    "DATA" (toySignedBy "DATA") 0
    (by decide) rfl rfl rfl rfl (by decide) (by decide)

/-- Counterexample to C3 as stated: with `cacheTTL = 48h` (legal, from
`refreshDelay = 48h`) and a verified cache pair of age 25h, the hypotheses of the claim hold (`elapsed < cacheTTL`), yet the very first call
attempts the network (`prefetchDelay - elapsed` is negative), so the
fresh-cache path is not taken and the fetch capability is invoked. -/
theorem C3_counterexample :
    checkSignature toySigEnv "DATA" (toySignedBy "DATA") = Except.ok () ∧
    (25 * hourNs - 0) < toySource.cacheTTL ∧
    (fetchWithCache (toyEnv toyNetDown) toyCache toySource (25 * hourNs)).trace ≠ [] :=
  ⟨rfl, by decide, by decide⟩

/-- C2 (amended): the cache store writes the blob and then the
signature file, each by an atomic whole-file replace; if writing the
first file fails, the second write is never attempted and the on-disk
pair is left unchanged. -/
theorem C2_first_write_failure_aborts (env : Env) (fs : CacheFS) (bin sig : String) (now : Time) :
    ((writeToCache env fs bin sig now).2.1 = ["cacheFile"] ∨
     (writeToCache env fs bin sig now).2.1 = ["cacheFile", "cacheFile.minisig"]) ∧
    (env.okWriteBlob = false →
      (writeToCache env fs bin sig now).1 = fs ∧
      (writeToCache env fs bin sig now).2.1 = ["cacheFile"]) := by
  unfold writeToCache
  by_cases hb : env.okWriteBlob
  · rw [if_pos hb]
    dsimp only
    by_cases hsw : env.okWriteSig
    · rw [if_pos hsw]
      exact ⟨Or.inr rfl, fun h => by rw [h] at hb; exact absurd hb (by decide)⟩
    · rw [if_neg hsw]
      exact ⟨Or.inr rfl, fun h => by rw [h] at hb; exact absurd hb (by decide)⟩
  · rw [if_neg hb]
    exact ⟨Or.inl rfl, fun _ => ⟨rfl, rfl⟩⟩

/-- Witness for C2: with the blob write failing, the cache pair is
untouched and only the first write was attempted. -/
theorem C2_witness :
    (writeToCache toyEnvNoBlobWrite toyCache "NEW" (toySignedBy "NEW") 100).1 = toyCache ∧
    (writeToCache toyEnvNoBlobWrite toyCache "NEW" (toySignedBy "NEW") 100).2.1 =
      ["cacheFile"] :=
  (C2_first_write_failure_aborts toyEnvNoBlobWrite toyCache "NEW" (toySignedBy "NEW") 100).2 rfl

/-- Counterexample to C2 as stated: when the blob write commits and the
signature write then fails (equivalently, the process crashes between
the two renames), a reader observes the newly-written blob paired with
the old signature — the two files are not replaced as one atomic pair. -/
theorem C2_counterexample :
    (writeToCache toyEnvNoSigWrite toyCache "NEW" (toySignedBy "NEW") 100).1.blobFile =
      some "NEW" ∧
    (writeToCache toyEnvNoSigWrite toyCache "NEW" (toySignedBy "NEW") 100).1.sigFile =
      some (toySignedBy "DATA") ∧
    toySignedBy "DATA" ≠ toySignedBy "NEW" := by
  decide

/-- C8: the Source built by `NewSource` always has
`cacheTTL = max refreshDelay DefaultPrefetchDelay`: a `refreshDelay`
below the 24-hour floor is clamped up to it. -/
theorem C8_cacheTTL_clamped (env : Env) (fs : CacheFS) (name : String) (urls : List String)
    (keyOk : Bool) (formatStr : String) (refreshDelay : Duration) (now : Time) :
    (NewSource env fs name urls keyOk formatStr refreshDelay now).1.cacheTTL =
      max refreshDelay DefaultPrefetchDelay := by
  have hmax :
      (if refreshDelay < DefaultPrefetchDelay then DefaultPrefetchDelay else refreshDelay) =
        max refreshDelay DefaultPrefetchDelay := by
    rcases lt_or_le refreshDelay DefaultPrefetchDelay with h | h
    · rw [if_pos h, max_eq_right h.le]
    · rw [if_neg (not_lt.mpr h), max_eq_left h]
  unfold NewSource
  dsimp only
  by_cases hf : formatStr ≠ "v2"
  · rw [if_pos hf]; exact hmax
  · rw [if_neg hf]
    by_cases hk : keyOk
    · rw [if_neg (by simpa using hk)]
      dsimp only
      rw [(fetchWithCache_source_fields env fs _ now).1]
      exact hmax
    · rw [if_pos (by simpa using hk)]
      exact hmax

/-- C9: `prefetchDelay` is the constant `DefaultPrefetchDelay` (24h)
for every Source built by `NewSource`, whatever `refreshDelay` the
caller passes; and after every successful network refresh (no error,
at least one network fetch) the returned delay and the scheduled
`refresh` are exactly 24 hours. -/
theorem C9_prefetchDelay_constant :
    (∀ (env : Env) (fs : CacheFS) (name : String) (urls : List String) (keyOk : Bool)
       (formatStr : String) (refreshDelay : Duration) (now : Time),
       (NewSource env fs name urls keyOk formatStr refreshDelay now).1.prefetchDelay =
         DefaultPrefetchDelay) ∧
    (∀ (env : Env) (fs : CacheFS) (s : Source) (now : Time),
       s.prefetchDelay = DefaultPrefetchDelay →
       (fetchWithCache env fs s now).err = none →
       (fetchWithCache env fs s now).trace ≠ [] →
       (fetchWithCache env fs s now).delay = DefaultPrefetchDelay ∧
       (fetchWithCache env fs s now).source.refresh = some (now + DefaultPrefetchDelay)) := by
  constructor
  · intro env fs name urls keyOk formatStr refreshDelay now
    unfold NewSource
    dsimp only
    by_cases hf : formatStr ≠ "v2"
    · rw [if_pos hf]
    · rw [if_neg hf]
      by_cases hk : keyOk
      · rw [if_neg (by simpa using hk)]
        dsimp only
        rw [(fetchWithCache_source_fields env fs _ now).2.1]
      · rw [if_pos (by simpa using hk)]
  · intro env fs s now hp he htr
    by_cases hearly : s.urls = [] ∨ 0 < (fetchFromCache env.sigEnv fs s now).2.1
    · rw [fetchWithCache_early env fs s now hearly] at htr
      exact absurd rfl htr
    · push_neg at hearly
      obtain ⟨hu, hd⟩ := hearly
      cases hl : (mirrorLoop env s.urls (fetchFromCache env.sigEnv fs s now).2.2).1 with
      | none =>
        rw [fetchWithCache_loop_fail env fs s now hu (not_lt.mpr hd) hl] at he
        dsimp only at he
        have hsome := mirrorLoop_none_isSome env s.urls
          (fetchFromCache env.sigEnv fs s now).2.2 (Or.inr hu) hl
        rw [he] at hsome
        simp at hsome
      | some pr =>
        obtain ⟨bin, sig⟩ := pr
        rw [fetchWithCache_loop_ok env fs s now bin sig hu (not_lt.mpr hd) hl]
        exact ⟨hp, by rw [hp]⟩

/-- Witness for C9: construction at `refreshDelay = 0` still yields a
24-hour `prefetchDelay`, and a successful network refresh from an empty
cache schedules exactly 24 hours ahead. -/
theorem C9_witness :
    (NewSource (toyEnv toyNetServe) toyCacheMiss "s" ["http://m1/list"] true "v2" 0 0).1.prefetchDelay =
      DefaultPrefetchDelay ∧
    (fetchWithCache (toyEnv toyNetServe) toyCacheMiss toySource 0).delay = DefaultPrefetchDelay ∧
    (fetchWithCache (toyEnv toyNetServe) toyCacheMiss toySource 0).source.refresh =
      some (0 + DefaultPrefetchDelay) := by
  refine ⟨C9_prefetchDelay_constant.1 (toyEnv toyNetServe) toyCacheMiss "s"
    ["http://m1/list"] true "v2" 0 0, ?_, ?_⟩
  · exact (C9_prefetchDelay_constant.2 (toyEnv toyNetServe) toyCacheMiss toySource 0
      rfl rfl (by decide)).1
  · exact (C9_prefetchDelay_constant.2 (toyEnv toyNetServe) toyCacheMiss toySource 0
      rfl rfl (by decide)).2

theorem mirrorLoop_cons (env : Env) (u : String) (rest : List String) (p : Option String) :
    mirrorLoop env (u :: rest) p =
      match env.net u with
      | Except.error e =>
        ((mirrorLoop env rest (some e)).1, (mirrorLoop env rest (some e)).2.1,
         u :: (mirrorLoop env rest (some e)).2.2)
      | Except.ok bin =>
        match env.net (sigURLOf u) with
        | Except.error e =>
          ((mirrorLoop env rest (some e)).1, (mirrorLoop env rest (some e)).2.1,
           u :: sigURLOf u :: (mirrorLoop env rest (some e)).2.2)
        | Except.ok sig =>
          match checkSignature env.sigEnv bin sig with
          | Except.ok _ => (some (bin, sig), none, [u, sigURLOf u])
          | Except.error e =>
            ((mirrorLoop env rest (some e)).1, (mirrorLoop env rest (some e)).2.1,
             u :: sigURLOf u :: (mirrorLoop env rest (some e)).2.2) := rfl

theorem mirrorLoop_cons_success (env : Env) (u : String) (rest : List String)
    (p : Option String) (hsu : mirrorSucceeds env u = true) :
    mirrorLoop env (u :: rest) p = (mirrorResult env u, none, [u, sigURLOf u]) := by
  rw [mirrorLoop_cons]
  unfold mirrorSucceeds at hsu
  unfold mirrorResult
  cases hn : env.net u with
  | error e => rw [hn] at hsu; simp at hsu
  | ok bin =>
    rw [hn] at hsu
    dsimp only at hsu ⊢
    cases hn2 : env.net (sigURLOf u) with
    | error e => rw [hn2] at hsu; simp at hsu
    | ok sig =>
      rw [hn2] at hsu
      dsimp only at hsu ⊢
      cases hc : checkSignature env.sigEnv bin sig with
      | error e => rw [hc] at hsu; simp at hsu
      | ok v => rfl

theorem mirrorLoop_cons_fail (env : Env) (u : String) (rest : List String)
    (p : Option String) (hsu : mirrorSucceeds env u = false) :
    mirrorLoop env (u :: rest) p =
      ((mirrorLoop env rest (mirrorErr env u)).1,
       (mirrorLoop env rest (mirrorErr env u)).2.1,
       attemptsOf env u ++ (mirrorLoop env rest (mirrorErr env u)).2.2) := by
  rw [mirrorLoop_cons]
  unfold mirrorSucceeds at hsu
  unfold mirrorErr attemptsOf
  cases hn : env.net u with
  | error e => rfl
  | ok bin =>
    rw [hn] at hsu
    dsimp only at hsu ⊢
    cases hn2 : env.net (sigURLOf u) with
    | error e => rfl
    | ok sig =>
      rw [hn2] at hsu
      dsimp only at hsu ⊢
      cases hc : checkSignature env.sigEnv bin sig with
      | error e => rfl
      | ok v => rw [hc] at hsu; simp at hsu

/-- C5: the mirror loop tries mirrors in configured order; a download
or signature failure moves on to the next mirror; it stops at and
returns the pair of the first mirror that verifies, after attempting every
earlier mirror; if all mirrors fail, it returns no pair and carries the
last encountered error.  (The witness instantiates the P4 scenario
[M1 fails, M2 invalid signature, M3 valid].) -/
theorem C5_mirror_fallback_order (env : Env) :
    (∀ (pre : List String) (u : String) (post : List String) (prevErr : Option String),
      (∀ v ∈ pre, mirrorSucceeds env v = false) → mirrorSucceeds env u = true →
      mirrorLoop env (pre ++ u :: post) prevErr =
        (mirrorResult env u, none,
         (pre.map (attemptsOf env)).flatten ++ [u, sigURLOf u])) ∧
    (∀ (urls : List String) (prevErr : Option String),
      (∀ v ∈ urls, mirrorSucceeds env v = false) →
      mirrorLoop env urls prevErr =
        (none, lastErrList env urls prevErr, (urls.map (attemptsOf env)).flatten)) := by
  constructor
  · intro pre
    induction pre with
    | nil =>
      intro u post prevErr _ hsu
      rw [List.nil_append, mirrorLoop_cons_success env u post prevErr hsu]
      simp
    | cons v pre ih =>
      intro u post prevErr hpre hsu
      have hv : mirrorSucceeds env v = false := hpre v (List.mem_cons_self v pre)
      rw [List.cons_append, mirrorLoop_cons_fail env v (pre ++ u :: post) prevErr hv]
      rw [ih u post (mirrorErr env v) (fun w hw => hpre w (List.mem_cons_of_mem v hw)) hsu]
      simp [List.append_assoc]
  · intro urls
    induction urls with
    | nil => intro prevErr _; simp [mirrorLoop, lastErrList]
    | cons u rest ih =>
      intro prevErr hall
      have hu : mirrorSucceeds env u = false := hall u (List.mem_cons_self u rest)
      rw [mirrorLoop_cons_fail env u rest prevErr hu]
      rw [ih (mirrorErr env u) (fun w hw => hall w (List.mem_cons_of_mem u hw))]
      simp [lastErrList]

/-- Witness for C5, the P4 scenario: M1 unreachable, M2 serving an
invalid signature, M3 valid — the loop returns the pair of M3 and the trace
shows M1 and M2 attempted, in order, before M3. -/
theorem C5_witness :
    mirrorLoop (toyEnv toyNetM) ["m1", "m2", "m3"] none =
      (mirrorResult (toyEnv toyNetM) "m3", none,
       ((["m1", "m2"]).map (attemptsOf (toyEnv toyNetM))).flatten ++ ["m3", sigURLOf "m3"]) ∧
    mirrorResult (toyEnv toyNetM) "m3" = some ("D3", toySignedBy "D3") ∧
    ((["m1", "m2"]).map (attemptsOf (toyEnv toyNetM))).flatten ++ ["m3", sigURLOf "m3"] =
      ["m1", "m2", "m2.minisig", "m3", "m3.minisig"] := by
  refine ⟨?_, by decide, by decide⟩
  exact (C5_mirror_fallback_order (toyEnv toyNetM)).1 ["m1", "m2"] "m3" [] none
    (by decide) (by decide)

theorem charUtf8Size_pos (c : Char) : 0 < charUtf8Size c := by
  unfold charUtf8Size
  repeat' split
  all_goals norm_num

theorem utf8Len_eq_zero_iff (l : List Char) : utf8Len l = 0 ↔ l = [] := by
  cases l with
  | nil => simp [utf8Len]
  | cons c t =>
    have hpos := charUtf8Size_pos c
    simp [utf8Len]
    omega

/-- C6 (amended): a section whose trimmed body has at least one line
after its (nonempty) name line is never a format-level abort — a
missing connection descriptor, an undecodable one, or a duplicated one
there is an entry-level error; an entry-level error is appended to the
collected errors and parsing continues with the remaining sections; on
the P6 input, exactly one entry (B) and one entry-level error (for A)
are produced, not a total parse failure. -/
theorem C6_partial_parse :
    (∀ (ps : String → Except String String) (np : String) (p : List Char)
       (rest : List (List Char)) (svs : List RegisteredServer) (errs : List String)
       (m : String),
       parsePart ps np p = PartOut.entryErr m →
       parseV2Go ps np (p :: rest) svs errs = parseV2Go ps np rest svs (errs ++ [m])) ∧
    (∀ (ps : String → Except String String) (np : String) (p : List Char)
       (first : List Char) (rest2 : List (List Char)),
       goSplit ['\n'] (goTrim p) = first :: rest2 → rest2 ≠ [] → goTrim first ≠ [] →
       parsePart ps np p ≠ PartOut.fatal) ∧
    parseV2 parseStampToy srcP6 "" =
      ([{ name := "B", stamp := stampOkStr, description := "" }],
       some (ParseErr.stampErrs
         ["Invalid or unsupported stamp [sdns://bad]: unsupported stamp version or protocol"])) := by
  refine ⟨?_, ?_, by decide⟩
  · intro ps np p rest svs errs m h
    simp only [parseV2Go, h]
  · intro ps np p first rest2 hsplit hrest hname
    unfold parsePart
    dsimp only
    rw [hsplit]
    dsimp only
    rw [if_neg hrest]
    have hlen : ¬ utf8Len (goTrim first) = 0 := fun h0 =>
      hname ((utf8Len_eq_zero_iff (goTrim first)).mp h0)
    rw [if_neg hlen]
    cases hscan : scanSubparts rest2 [] [] with
    | multipleStamps => simp
    | done stampStr description =>
      dsimp only
      by_cases hshort : utf8Len stampStr < 6
      · rw [if_pos hshort]; simp
      · rw [if_neg hshort]
        cases hstamp : ps (String.mk stampStr) with
        | error e => simp
        | ok stamp => simp

/-- Witness for C6: section `A` of the P6 input is an entry-level
error, the outer loop steps over it carrying the message, and that
section is not a format-level abort. -/
theorem C6_witness :
    parseV2Go parseStampToy "" [String.toList "A\nsdns://bad"] [] [] =
      parseV2Go parseStampToy "" [] []
        ([] ++ ["Invalid or unsupported stamp [sdns://bad]: unsupported stamp version or protocol"]) ∧
    parsePart parseStampToy "" (String.toList "A\nsdns://bad") ≠ PartOut.fatal := by
  constructor
  · exact C6_partial_parse.1 parseStampToy "" (String.toList "A\nsdns://bad") [] [] []
      "Invalid or unsupported stamp [sdns://bad]: unsupported stamp version or protocol"
      (by decide)
  · exact C6_partial_parse.2.1 parseStampToy "" (String.toList "A\nsdns://bad")
      (String.toList "A") [String.toList "sdns://bad"] (by decide) (by decide) (by decide)

/-- Counterexample to C6 as stated: a section consisting of its name
line only — missing its connection descriptor — is a format-level
abort, not an entry-level error: the whole parse fails and the valid
section B is discarded, although B alone parses to a valid entry. -/
theorem C6_counterexample :
    parseV2 parseStampToy srcOnlyName "" = ([], some ParseErr.invalidFormat) ∧
    parseV2 parseStampToy srcOnlyB "" =
      ([{ name := "B", stamp := stampOkStr, description := "" }], none) := by
  decide

theorem minQual_cons (d : Duration) (rest : List Duration) :
    minQual (d :: rest) =
      if MinimumPrefetchInterval ≤ d then
        match minQual rest with
        | none => some d
        | some m => some (min d m)
      else minQual rest := rfl

theorem prefetchGo_cons (now : Time) (w : SourceWorld) (ws : List SourceWorld)
    (i : Duration) :
    prefetchGo now (w :: ws) i =
      match w.source.refresh with
      | none =>
        (w :: (prefetchGo now ws i).1, (prefetchGo now ws i).2.1,
         ⟨false, 0, none⟩ :: (prefetchGo now ws i).2.2)
      | some t =>
        if now < t then
          (w :: (prefetchGo now ws i).1, (prefetchGo now ws i).2.1,
           ⟨false, 0, none⟩ :: (prefetchGo now ws i).2.2)
        else
          ({ w with source := (fetchWithCache w.env w.fs w.source now).source,
                    fs := (fetchWithCache w.env w.fs w.source now).fs } ::
             (prefetchGo now ws
               (match (fetchWithCache w.env w.fs w.source now).err with
                | some _ => i
                | none => combineInterval i (fetchWithCache w.env w.fs w.source now).delay)).1,
           (prefetchGo now ws
             (match (fetchWithCache w.env w.fs w.source now).err with
              | some _ => i
              | none => combineInterval i (fetchWithCache w.env w.fs w.source now).delay)).2.1,
           ⟨true, (fetchWithCache w.env w.fs w.source now).delay,
            (fetchWithCache w.env w.fs w.source now).err⟩ ::
             (prefetchGo now ws
               (match (fetchWithCache w.env w.fs w.source now).err with
                | some _ => i
                | none => combineInterval i (fetchWithCache w.env w.fs w.source now).delay)).2.2) := by
  rfl

theorem prefetchGo_interval_foldl (now : Time) :
    ∀ (ws : List SourceWorld) (i : Duration),
      (prefetchGo now ws i).2.1 =
        (successDelays (prefetchGo now ws i).2.2).foldl combineInterval i := by
  intro ws
  induction ws with
  | nil => intro i; rfl
  | cons w ws ih =>
    intro i
    unfold prefetchGo
    cases hr : w.source.refresh with
    | none =>
      dsimp only
      have hsd : successDelays (⟨false, 0, none⟩ :: (prefetchGo now ws i).2.2) =
          successDelays (prefetchGo now ws i).2.2 := by simp [successDelays]
      rw [hsd]
      exact ih i
    | some t =>
      dsimp only
      by_cases hlt : now < t
      · rw [if_pos hlt]
        dsimp only
        have hsd : successDelays (⟨false, 0, none⟩ :: (prefetchGo now ws i).2.2) =
            successDelays (prefetchGo now ws i).2.2 := by simp [successDelays]
        rw [hsd]
        exact ih i
      · rw [if_neg hlt]
        dsimp only
        cases herr : (fetchWithCache w.env w.fs w.source now).err with
        | some e =>
          dsimp only
          have hsd : successDelays
              (⟨true, (fetchWithCache w.env w.fs w.source now).delay, some e⟩ ::
                (prefetchGo now ws i).2.2) =
              successDelays (prefetchGo now ws i).2.2 := by simp [successDelays]
          rw [hsd]
          exact ih i
        | none =>
          dsimp only
          have hsd : successDelays
              (⟨true, (fetchWithCache w.env w.fs w.source now).delay, none⟩ ::
                (prefetchGo now ws
                  (combineInterval i (fetchWithCache w.env w.fs w.source now).delay)).2.2) =
              (fetchWithCache w.env w.fs w.source now).delay ::
                successDelays (prefetchGo now ws
                  (combineInterval i (fetchWithCache w.env w.fs w.source now).delay)).2.2 := by
            simp [successDelays]
          rw [hsd, List.foldl_cons]
          exact ih (combineInterval i (fetchWithCache w.env w.fs w.source now).delay)

theorem foldl_combine_ge (ds : List Duration) :
    ∀ i, MinimumPrefetchInterval ≤ i →
      MinimumPrefetchInterval ≤ ds.foldl combineInterval i := by
  induction ds with
  | nil => intro i hi; simpa using hi
  | cons d rest ih =>
    intro i hi
    rw [List.foldl_cons]
    apply ih
    unfold combineInterval
    split
    · next hcond => exact hcond.1
    · exact hi

theorem foldl_combine_minQual (ds : List Duration) :
    ∀ i, MinimumPrefetchInterval < i → (∀ d ∈ ds, d ≠ MinimumPrefetchInterval) →
      ds.foldl combineInterval i = ((minQual ds).map (min i)).getD i := by
  induction ds with
  | nil => intro i _ _; simp [minQual]
  | cons d rest ih =>
    intro i hi hne
    rw [List.foldl_cons]
    by_cases hq : MinimumPrefetchInterval ≤ d
    · have hdm : d ≠ MinimumPrefetchInterval := hne d (List.mem_cons_self d rest)
      have hdgt : MinimumPrefetchInterval < d := lt_of_le_of_ne hq (Ne.symm hdm)
      have hcomb : combineInterval i d = min i d := by
        unfold combineInterval
        by_cases hdi : d < i
        · rw [if_pos ⟨hq, Or.inr hdi⟩, min_eq_right hdi.le]
        · rw [if_neg, min_eq_left (not_lt.mp hdi)]
          rintro ⟨_, hor⟩
          rcases hor with h1 | h2
          · exact absurd h1 (ne_of_gt hi)
          · exact hdi h2
      rw [hcomb, ih (min i d) (lt_min hi hdgt)
        (fun v hv => hne v (List.mem_cons_of_mem d hv))]
      rw [minQual_cons, if_pos hq]
      cases hmq : minQual rest with
      | none => simp
      | some m => simp [min_assoc]
    · have hcomb : combineInterval i d = i := by
        unfold combineInterval
        rw [if_neg]
        rintro ⟨h1, _⟩
        exact hq h1
      rw [hcomb, ih i hi (fun v hv => hne v (List.mem_cons_of_mem d hv))]
      rw [minQual_cons, if_neg hq]

theorem foldl_combine_start (ds : List Duration) :
    (∀ d ∈ ds, d ≠ MinimumPrefetchInterval) →
    ds.foldl combineInterval MinimumPrefetchInterval = specSweepMin ds := by
  induction ds with
  | nil => intro _; rfl
  | cons d rest ih =>
    intro hne
    rw [List.foldl_cons]
    by_cases hq : MinimumPrefetchInterval ≤ d
    · have hdgt : MinimumPrefetchInterval < d :=
        lt_of_le_of_ne hq (Ne.symm (hne d (List.mem_cons_self d rest)))
      have hcomb : combineInterval MinimumPrefetchInterval d = d := by
        unfold combineInterval
        rw [if_pos ⟨hq, Or.inl rfl⟩]
      rw [hcomb, foldl_combine_minQual rest d hdgt
        (fun v hv => hne v (List.mem_cons_of_mem d hv))]
      unfold specSweepMin
      rw [minQual_cons, if_pos hq]
      cases hmq : minQual rest with
      | none => simp
      | some m => simp
    · have hcomb : combineInterval MinimumPrefetchInterval d = MinimumPrefetchInterval := by
        unfold combineInterval
        rw [if_neg]
        rintro ⟨h1, _⟩
        exact hq h1
      rw [hcomb, ih (fun v hv => hne v (List.mem_cons_of_mem d hv))]
      unfold specSweepMin
      rw [minQual_cons, if_neg hq]

/-- C7 (amended): the prefetch sweep skips each Source whose `refresh`
is the zero time or after `now` and invokes the refresh path for each
remaining Source; the returned wait is always at least the 10-minute
floor; and when no successful refresh produced a delay exactly equal to
the floor, the returned wait is the minimum over the refresh-produced
delays that reach the floor, defaulting to the floor itself.  (A
produced delay equal to the floor resets the tracked minimum, so the
unrestricted minimum characterization fails — see the counterexample.) -/
theorem C7_sweep_minimum (now : Time) :
    (∀ (ws : List SourceWorld) (i : Duration) (w : SourceWorld),
       (w.source.refresh = none ∨ ∃ t, w.source.refresh = some t ∧ now < t) →
       prefetchGo now (w :: ws) i =
         (w :: (prefetchGo now ws i).1, (prefetchGo now ws i).2.1,
          ⟨false, 0, none⟩ :: (prefetchGo now ws i).2.2)) ∧
    (∀ (ws : List SourceWorld) (i : Duration) (w : SourceWorld) (t : Time),
       w.source.refresh = some t → ¬ now < t →
       (prefetchGo now (w :: ws) i).2.2.head? =
         some ⟨true, (fetchWithCache w.env w.fs w.source now).delay,
               (fetchWithCache w.env w.fs w.source now).err⟩) ∧
    (∀ ws : List SourceWorld,
       MinimumPrefetchInterval ≤ (PrefetchSources now ws).2.1) ∧
    (∀ ws : List SourceWorld,
       (∀ d ∈ successDelays (PrefetchSources now ws).2.2, d ≠ MinimumPrefetchInterval) →
       (PrefetchSources now ws).2.1 =
         specSweepMin (successDelays (PrefetchSources now ws).2.2)) := by
  refine ⟨?_, ?_, ?_, ?_⟩
  · intro ws i w hskip
    rw [prefetchGo_cons]
    rcases hskip with hr | ⟨t, hr, hlt⟩
    · rw [hr]
    · rw [hr]
      dsimp only
      rw [if_pos hlt]
  · intro ws i w t hr hlt
    rw [prefetchGo_cons, hr]
    dsimp only
    rw [if_neg hlt]
    rfl
  · intro ws
    unfold PrefetchSources
    rw [prefetchGo_interval_foldl now ws MinimumPrefetchInterval]
    exact foldl_combine_ge _ _ le_rfl
  · intro ws hne
    unfold PrefetchSources at hne ⊢
    rw [prefetchGo_interval_foldl now ws MinimumPrefetchInterval]
    exact foldl_combine_start _ hne

/-- Witness for C7: a never-scheduled world is skipped unchanged; a due
world is invoked and reports its delay; and on a sweep whose one
successful delay (30 min) is above the floor, the returned wait is the
spec-side minimum, itself at least the floor. -/
theorem C7_witness :
    prefetchGo 0 [toyUnscheduledWorld] MinimumPrefetchInterval =
      (toyUnscheduledWorld :: (prefetchGo 0 [] MinimumPrefetchInterval).1,
       (prefetchGo 0 [] MinimumPrefetchInterval).2.1,
       ⟨false, 0, none⟩ :: (prefetchGo 0 [] MinimumPrefetchInterval).2.2) ∧
    (prefetchGo 0 [toyFreshWorld 30] MinimumPrefetchInterval).2.2.head? =
      some ⟨true, 30 * nsPerMinute, none⟩ ∧
    (PrefetchSources 0 [toyFreshWorld 30]).2.1 =
      specSweepMin (successDelays (PrefetchSources 0 [toyFreshWorld 30]).2.2) ∧
    MinimumPrefetchInterval ≤ (PrefetchSources 0 [toyFreshWorld 30]).2.1 := by
  refine ⟨?_, ?_, ?_, ?_⟩
  · exact (C7_sweep_minimum 0).1 [] MinimumPrefetchInterval toyUnscheduledWorld (Or.inl rfl)
  · rw [(C7_sweep_minimum 0).2.1 [] MinimumPrefetchInterval (toyFreshWorld 30) 0 rfl
      (by decide)]
    decide
  · exact (C7_sweep_minimum 0).2.2.2 [toyFreshWorld 30] (by decide)
  · exact (C7_sweep_minimum 0).2.2.1 [toyFreshWorld 30]

/-- Counterexample to C7 as stated: two due sources whose successful
refreshes produce delays of 10 and 30 minutes (both at least the
floor).  The minimum of those delays is 10 minutes, but the sweep
returns 30 minutes: the delay equal to the floor reset the tracked
value, so the next larger delay overwrote it. -/
theorem C7_counterexample :
    (PrefetchSources 0 [toyFreshWorld 10, toyFreshWorld 30]).2.1 = 30 * nsPerMinute ∧
    successDelays (PrefetchSources 0 [toyFreshWorld 10, toyFreshWorld 30]).2.2 =
      [10 * nsPerMinute, 30 * nsPerMinute] ∧
    specSweepMin [10 * nsPerMinute, 30 * nsPerMinute] = 10 * nsPerMinute ∧
    (30 : Int) * nsPerMinute ≠ 10 * nsPerMinute := by
  decide

end Sources
